import Mathlib

/-!
Shallow embedding of the retrieval-and-synthesis core of the farm-sensei
backend (`src/backend/app/llm.py` and `src/backend/app/retriever.py`),
together with theorems settling the frozen claims about it.

Conventions of the embedding:
* Python dictionaries produced by `json.loads` are modelled by the inductive
  `Json`; Python `field in response` is `pyIn`, which raises `TypeError`
  (modelled as `Except.error PyError.typeError`) on non-container values,
  exactly as CPython does.
* Python floats are modelled as rationals (`ℚ`); the arithmetic performed by
  the code (`min`, `+`, `*` on small decimal literals) is exact at this
  granularity.
* Fallible collaborator calls (Hugging Face generation, Supabase RPC, the
  sentence-transformer encoder) are inputs of type `Option`/`Except`, so a
  single Lean function covers every outcome of the external world.
* Python's truthiness test on an optional string (`if image_context:`,
  `if doc.get("snippet"):`) is `truthyStr`: true iff present and non-empty.
-/

/-- Runtime errors that the embedded Python code can raise.  Only
`TypeError` is reachable in the modelled fragment (from `in` on a
non-container and from item assignment on a non-dict). -/
inductive PyError where
  | typeError
deriving DecidableEq, Repr

/-- JSON values, the result type of `json.loads`. -/
inductive Json where
  | null
  | bool (b : Bool)
  | num (q : ℚ)
  | str (s : String)
  | arr (elems : List Json)
  | obj (fields : List (String × Json))

/-- A knowledge-base document as handled by `retriever.py` and `llm.py`: a
dict whose relevant keys are `id`, `title`, `content`, `url`, `snippet`,
any of which may be absent (the code reads them with `doc.get`). -/
structure Doc where
  id : Option String := none
  title : Option String := none
  content : Option String := none
  url : Option String := none
  snippet : Option String := none
deriving DecidableEq, Repr

/-- Python truthiness of an optional string: `None` and `""` are falsy. -/
def truthyStr : Option String → Bool
  | none => false
  | some s => s ≠ ""

/-- One character list is an initial segment of another. -/
def strPrefixEq : List Char → List Char → Bool
  | [], _ => true
  | _ :: _, [] => false
  | a :: as, b :: bs => a == b && strPrefixEq as bs

/-- The needle occurs contiguously somewhere in the haystack. -/
def strOccurs (needle : List Char) : List Char → Bool
  | [] => strPrefixEq needle []
  | c :: rest => strPrefixEq needle (c :: rest) || strOccurs needle rest

/-- Python substring membership `needle in s`: the needle's characters
occur contiguously in `s`. -/
def substrMem (needle s : String) : Bool :=
  strOccurs needle.data s.data

/-- Embedding of `any(word in query_lower for word in words)`. -/
def hasAnyWord (words : List String) (ql : String) : Bool :=
  words.any (fun w => substrMem w ql)

/-- Python `==` between a string and a JSON value (used by `in` on lists):
true only against an equal string. -/
def jsonStrEq (f : String) : Json → Bool
  | .str s => f = s
  | _ => false

/-- Python membership `f in response`: key lookup on dicts, substring test
on strings, element equality on lists; `TypeError` on every other value. -/
def pyIn (f : String) : Json → Except PyError Bool
  | .obj fields => .ok (fields.any (fun kv => kv.1 = f))
  | .str s => .ok (substrMem f s)
  | .arr elems => .ok (elems.any (jsonStrEq f))
  | _ => .error .typeError

/-- The four fields required of a generation response
(`LLMClient._validate_response`). -/
def requiredFields : List String := ["answer", "confidence", "actions", "sources"]

/-- Embedding of `LLMClient._validate_response`:
`all(field in response for field in required_fields)`.  The short-circuit
monadic fold mirrors Python's `all` over a generator, including the
`TypeError` escaping when `response` is not a container. -/
def validate_response (response : Json) : Except PyError Bool :=
  requiredFields.allM (fun f => pyIn f response)

/-- Python item assignment `parsed[key] = v`: replaces the value of an
existing key or appends a new binding on a dict; `TypeError` otherwise
(in particular on the `str` and `list` values that pass validation). -/
def setItem (j : Json) (key : String) (v : Json) : Except PyError Json :=
  match j with
  | .obj fields =>
      if fields.any (fun kv => kv.1 = key) then
        .ok (.obj (fields.map (fun kv => if kv.1 = key then (key, v) else kv)))
      else
        .ok (.obj (fields ++ [(key, v)]))
  | _ => .error .typeError

/-- Embedding of `LLMClient._generate_actions`: each keyword category
contributes its fixed three-item block, the blocks are concatenated in
source order, an empty result is replaced by the default block, and the
list is truncated to three entries. -/
def generate_actions (query : String) (image_context : Option String) : List String :=
  let ql := query.toLower
  let b1 : List String :=
    if truthyStr image_context || hasAnyWord ["disease", "pest", "problem"] ql then
      ["Consult local KVK for expert diagnosis",
       "Monitor crop daily for changes",
       "Consider soil testing if needed"]
    else []
  let b2 : List String :=
    if hasAnyWord ["irrigate", "water"] ql then
      ["Check soil moisture levels",
       "Monitor weather forecast",
       "Adjust irrigation schedule accordingly"]
    else []
  let b3 : List String :=
    if hasAnyWord ["plant", "sow", "seed"] ql then
      ["Check local weather conditions",
       "Prepare soil with proper nutrients",
       "Source quality seeds from certified dealers"]
    else []
  let b4 : List String :=
    if hasAnyWord ["market", "price", "sell"] ql then
      ["Check current mandi prices",
       "Consider storage options",
       "Plan harvest timing strategically"]
    else []
  let actions := b1 ++ b2 ++ b3 ++ b4
  let actions :=
    if actions.isEmpty then
      ["Consult local agricultural expert",
       "Monitor crop conditions regularly",
       "Keep records of farming activities"]
    else actions
  actions.take 3

/-- Embedding of `LLMClient._generate_contextual_answer`: the keyword
cascade over the lowercased query that chooses the fallback answer text. -/
def generate_contextual_answer (query : String) (snippets : List String)
    (image_context : Option String) : String :=
  let ql := query.toLower
  if truthyStr image_context then
    let ctx := image_context.getD ""
    if substrMem "disease" ql || substrMem "pest" ql then
      "Based on the uploaded image showing " ++ ctx ++
        ", I can see potential issues that may require attention. " ++
        (if snippets.isEmpty then
          "Please consult with a local agricultural expert for proper diagnosis and treatment recommendations."
        else String.intercalate " " (snippets.take 2))
    else
      "From the uploaded image of " ++ ctx ++ ", " ++
        (if snippets.isEmpty then
          "this appears to be a healthy crop. Continue with regular care and monitoring."
        else String.intercalate " " (snippets.take 2))
  else if hasAnyWord ["irrigate", "water", "rain", "weather"] ql then
    let base := "For irrigation timing, consider soil moisture, weather conditions, and crop growth stage."
    match snippets with
    | s :: _ => base ++ " " ++ s
    | [] => base ++ " Check soil moisture at 6-inch depth and irrigate when it feels dry."
  else if hasAnyWord ["pest", "disease", "insect", "fungus"] ql then
    let base := "For pest and disease management, early identification and integrated pest management are key."
    match snippets with
    | s :: _ => base ++ " " ++ s
    | [] => base ++ " Monitor crops regularly and consult local agricultural extension services for specific treatments."
  else if hasAnyWord ["plant", "sow", "seed", "timing"] ql then
    let base := "Planting timing depends on local climate, soil conditions, and crop variety."
    match snippets with
    | s :: _ => base ++ " " ++ s
    | [] => base ++ " Consult your local agricultural calendar and weather forecasts for optimal timing."
  else if hasAnyWord ["price", "market", "sell", "buy"] ql then
    let base := "Market prices fluctuate based on supply, demand, and seasonal factors."
    match snippets with
    | s :: _ => base ++ " " ++ s
    | [] => base ++ " Check local mandi prices and consider storage options during peak harvest."
  else if snippets.isEmpty then
    "For specific agricultural advice, I recommend consulting with your local Krishi Vigyan Kendra (KVK) or agricultural extension officer who can provide guidance tailored to your local conditions and crops."
  else
    "Based on agricultural best practices: " ++ String.intercalate " " (snippets.take 2)

/-- Embedding of `LLMClient._deterministic_fallback`.  `demoMode` is the
configuration flag `DEMO_MODE` (true iff no generation API key is set). -/
def deterministic_fallback (demoMode : Bool) (prompt_text : String)
    (retrieved_docs : List Doc) (image_context : Option String) : Json :=
  let top := retrieved_docs.take 3
  let context_snippets := top.filterMap (fun d =>
    if truthyStr d.snippet then d.snippet else none)
  let sources := top.map (fun d => Json.obj [
    ("title", .str (d.title.getD "Agricultural Resource")),
    ("url", .str (d.url.getD "")),
    ("snippet", .str ((d.snippet.getD "").take 100 ++ "..."))])
  let answer := generate_contextual_answer prompt_text context_snippets image_context
  let actions := generate_actions prompt_text image_context
  let confidence : ℚ := min (8/10) (4/10 + (context_snippets.length : ℚ) * (1/10))
  Json.obj [
    ("answer", .str answer),
    ("confidence", .num confidence),
    ("actions", .arr (actions.map .str)),
    ("sources", .arr sources),
    ("meta", .obj [
      ("mode", .str (if demoMode then "demo" else "fallback")),
      ("retrieved_docs", .num (retrieved_docs.length : ℚ))])]

/-- Embedding of `LLMClient.synthesize_answer`.  `hfParsed` abstracts the
outcome of `query_huggingface` followed by `json.loads`:
`none` means no usable response text (no API key, HTTP error, unexpected
response shape, or empty text — all paths on which Python reaches the
fallback without a parse attempt); `some none` means response text that
raises `json.JSONDecodeError` (caught, falls through to the fallback);
`some (some j)` means response text parsed as the JSON value `j`.  In demo
mode the backend is never consulted, so `hfParsed` is ignored there. -/
def synthesize_answer (model : String) (demoMode : Bool)
    (hfParsed : Option (Option Json)) (prompt_text : String)
    (retrieved_docs : List Doc) (image_context : Option String) :
    Except PyError Json :=
  if demoMode then
    .ok (deterministic_fallback demoMode prompt_text retrieved_docs image_context)
  else
    match hfParsed with
    | some (some parsed) =>
        match validate_response parsed with
        | .error e => .error e
        | .ok true =>
            setItem parsed "meta" (.obj [("mode", .str "ai"), ("model", .str model)])
        | .ok false =>
            .ok (deterministic_fallback demoMode prompt_text retrieved_docs image_context)
    | _ =>
        .ok (deterministic_fallback demoMode prompt_text retrieved_docs image_context)

/-- Field lookup in a JSON object (Python `d[k]` read on a dict, partial). -/
def getField : Json → String → Option Json
  | .obj fields, k => (fields.find? (fun kv => kv.1 = k)).map (·.2)
  | _, _ => none

/-- The `confidence` field of a synthesized answer, when it is a number. -/
def confidenceOf (j : Json) : Option ℚ :=
  match getField j "confidence" with
  | some (.num q) => some q
  | _ => none

/-- Lexicographic "sort key" relation: ascending in the rational key `f`,
ties resolved ascending in the natural key `g`.  Sorting by such a
relation is how a stable sort is characterised: `g` is the original
position. -/
def keyLex {α : Type*} (f : α → ℚ) (g : α → ℕ) (a b : α) : Prop :=
  f a < f b ∨ (f a = f b ∧ g a ≤ g b)

instance {α : Type*} (f : α → ℚ) (g : α → ℕ) : DecidableRel (keyLex f g) :=
  fun a b => inferInstanceAs (Decidable (f a < f b ∨ (f a = f b ∧ g a ≤ g b)))

instance {α : Type*} (f : α → ℚ) (g : α → ℕ) : IsTrans α (keyLex f g) where
  trans a b c hab hbc := by
    rcases hab with h1 | ⟨h1, h1g⟩ <;> rcases hbc with h2 | ⟨h2, h2g⟩
    · exact Or.inl (h1.trans h2)
    · exact Or.inl (h2 ▸ h1)
    · exact Or.inl (h1 ▸ h2)
    · exact Or.inr ⟨h1.trans h2, h1g.trans h2g⟩

instance {α : Type*} (f : α → ℚ) (g : α → ℕ) : IsTotal α (keyLex f g) where
  total a b := by
    rcases lt_trichotomy (f a) (f b) with h | h | h
    · exact Or.inl (Or.inl h)
    · rcases Nat.le_total (g a) (g b) with hg | hg
      · exact Or.inl (Or.inr ⟨h, hg⟩)
      · exact Or.inr (Or.inr ⟨h.symm, hg⟩)
    · exact Or.inr (Or.inl h)

/-- Python's `list.sort(key=sc, reverse=True)`: a stable descending sort.
A stable descending sort is exactly the reordering that is ascending in
`(-key, original position)`, which is a linear order on the enumerated
list, so the result is characterised uniquely and independently of the
sorting algorithm. -/
def pySortDesc {α : Type*} (sc : α → ℚ) (l : List α) : List α :=
  (l.enum.insertionSort (keyLex (fun p => -(sc p.2)) Prod.fst)).map Prod.snd

/-- Lowercase whitespace tokenisation into a word set
(`set(text.lower().split())`), represented as a duplicate-free list; only
intersection cardinalities are ever read from it. -/
def wordSet (s : String) : List String :=
  ((s.toLower.split Char.isWhitespace).filter (fun w => w ≠ "")).dedup

/-- Cardinality of the intersection of two word sets (`a` duplicate-free). -/
def interCount (a b : List String) : ℕ :=
  (a.filter (fun w => b.contains w)).length

/-- The keyword-overlap score of one document
(`title_score + content_score` in `DocumentRetriever._keyword_search`):
title matches are weighted double. -/
def kwScore (query_words : List String) (d : Doc) : ℕ :=
  2 * interCount query_words (wordSet (d.title.getD "")) +
    interCount query_words (wordSet (d.content.getD ""))

/-- Embedding of `DocumentRetriever._keyword_search`: score every document,
keep only strictly positive scores (in corpus order), stable-sort
descending by score, return the first `k`. -/
def keyword_search (query_text : String) (k : ℕ) (documents : List Doc) :
    List (Doc × ℚ) :=
  let query_words := wordSet query_text
  let scored_docs := documents.filterMap (fun d =>
    let total_score := kwScore query_words d
    if 0 < total_score then some (d, (total_score : ℚ)) else none)
  (pySortDesc (fun p => p.2) scored_docs).take k

/-- Dot product of two equal-length rational vectors (`np.dot`). -/
def dotQ (a b : List ℚ) : ℚ :=
  ((a.zip b).map (fun p => p.1 * p.2)).sum

/-- Ascending `np.argsort`.  NumPy's default introsort degenerates to a
stable insertion sort on the small arrays this system builds (the corpus
has 8 documents); the stable behaviour — ties in index order — is what is
modelled: indices sorted ascending by `(value, index)`. -/
def argsortAsc (vals : List ℚ) : List ℕ :=
  (vals.enum.insertionSort (keyLex (fun p => p.2) (fun p => p.1))).map Prod.fst

instance : Inhabited Doc := ⟨{}⟩

/-- The local embedding-similarity branch of `DocumentRetriever.retrieve`
(lines 140–153): similarities by dot product against every corpus vector,
`np.argsort(similarities)[::-1][:k]`, then document/score pairs.  A shape
mismatch in `np.dot` or an index beyond `self.documents` raises
(`Except.error`), which the caller's `except` turns into keyword search. -/
def localSim (documents : List Doc) (query_embedding : List ℚ)
    (embeddings : List (List ℚ)) (k : ℕ) : Except Unit (List (Doc × ℚ)) :=
  if embeddings.all (fun row => row.length = query_embedding.length) then
    let similarities := embeddings.map (dotQ query_embedding)
    let top_indices := (argsortAsc similarities).reverse.take k
    if top_indices.all (fun i => i < documents.length) then
      .ok (top_indices.map (fun i => (documents.getD i default, similarities.getD i 0)))
    else .error ()
  else .error ()

/-- The collaborator-determined state read by one call of
`DocumentRetriever.retrieve`: the loaded corpus, whether the sentence
transformer loaded, the outcome of the Supabase `match_documents` RPC
(`none` when the DB is not connected or has no `rpc` attribute, otherwise
the data or the raised exception), the outcome of encoding the query (the
same model call made at both call sites), and the precomputed corpus
embeddings, if any. -/
structure RetrieveEnv where
  documents : List Doc
  modelLoaded : Bool
  dbRpc : Option (Except Unit (List (Doc × ℚ)))
  queryEncode : Except Unit (List ℚ)
  embeddings : Option (List (List ℚ))

/-- Embedding of `DocumentRetriever.retrieve`.  Empty corpus returns `[]`
before any strategy; a missing model means keyword search; otherwise the
remote RPC is attempted (its exceptions swallowed, its empty result
ignored), then local embedding similarity, then keyword search; any
exception escaping the outer `try` also lands in keyword search. -/
def retrieve (env : RetrieveEnv) (query_text : String) (k : ℕ) :
    List (Doc × ℚ) :=
  if env.documents.isEmpty then []
  else if !env.modelLoaded then keyword_search query_text k env.documents
  else
    let remoteHit : Option (List (Doc × ℚ)) :=
      match env.dbRpc, env.queryEncode with
      | some (.ok data), .ok _ => if data.isEmpty then none else some data
      | _, _ => none
    let body : Except Unit (List (Doc × ℚ)) :=
      match remoteHit with
      | some r => .ok r
      | none =>
        match env.queryEncode with
        | .error e => .error e
        | .ok query_embedding =>
          match env.embeddings with
          | some embs => localSim env.documents query_embedding embs k
          | none => .ok (keyword_search query_text k env.documents)
    match body with
    | .ok r => r
    | .error _ => keyword_search query_text k env.documents

/-- Embedding of `DocumentRetriever._get_fallback_documents`: the fixed
built-in agricultural knowledge base. -/
def get_fallback_documents : List Doc := [
  { id := some "1",
    title := some "Wheat Irrigation Guidelines",
    content := some "Wheat requires 4-6 irrigations during its growing season. Critical stages for irrigation include crown root initiation (20-25 days), tillering (40-45 days), jointing (60-65 days), flowering (85-90 days), and grain filling (100-110 days). Soil moisture should be maintained at 50-60% of field capacity.",
    url := some "https://icar.org.in/wheat-cultivation",
    snippet := some "Wheat requires 4-6 irrigations during growing season at critical stages including crown root initiation, tillering, jointing, flowering, and grain filling." },
  { id := some "2",
    title := some "Tomato Pest Management",
    content := some "Common tomato pests include whitefly, aphids, thrips, and fruit borers. Integrated pest management includes crop rotation, resistant varieties, biological control agents like Trichogramma, and need-based pesticide application. Monitor crops weekly for early detection.",
    url := some "https://icar.org.in/tomato-pest-management",
    snippet := some "Tomato pest management requires integrated approach with crop rotation, resistant varieties, biological control, and regular monitoring for early detection." },
  { id := some "3",
    title := some "Rice Planting Calendar",
    content := some "Rice planting timing varies by region. Kharif rice is sown June-July, transplanted July-August. Rabi rice sown November-December in southern states. Seed treatment with fungicides recommended. Maintain 2-3 cm water level after transplanting.",
    url := some "https://icar.org.in/rice-cultivation",
    snippet := some "Rice planting timing: Kharif sown June-July, Rabi November-December. Seed treatment and proper water management essential for good yields." },
  { id := some "4",
    title := some "Soil Health Management",
    content := some "Soil testing every 2-3 years helps determine nutrient status. Organic matter addition through compost, FYM improves soil structure. Balanced NPK application based on soil test results. Micronutrient deficiencies common in alkaline soils.",
    url := some "https://icar.org.in/soil-health",
    snippet := some "Regular soil testing, organic matter addition, and balanced fertilization based on soil test results are key for soil health management." },
  { id := some "5",
    title := some "Crop Disease Identification",
    content := some "Early disease detection crucial for management. Common symptoms include leaf spots, wilting, yellowing, stunted growth. Fungal diseases favored by high humidity. Bacterial diseases spread through water splash. Viral diseases transmitted by insects.",
    url := some "https://icar.org.in/plant-diseases",
    snippet := some "Early disease detection through symptom recognition (leaf spots, wilting, yellowing) enables timely management and prevents crop losses." },
  { id := some "6",
    title := some "Organic Farming Practices",
    content := some "Organic farming relies on natural inputs like compost, biofertilizers, biopesticides. Crop rotation, intercropping, and cover crops maintain soil fertility. Certification process takes 3 years. Premium prices offset lower yields initially.",
    url := some "https://icar.org.in/organic-farming",
    snippet := some "Organic farming uses natural inputs, crop rotation, and biological methods. Certification takes 3 years but offers premium market prices." },
  { id := some "7",
    title := some "Water Conservation Techniques",
    content := some "Drip irrigation saves 30-50% water compared to flood irrigation. Mulching reduces evaporation losses. Rainwater harvesting and farm ponds store monsoon water. Laser land leveling improves water use efficiency in flood irrigation.",
    url := some "https://icar.org.in/water-conservation",
    snippet := some "Water conservation through drip irrigation, mulching, rainwater harvesting, and laser leveling can save 30-50% water while maintaining yields." },
  { id := some "8",
    title := some "Post-Harvest Management",
    content := some "Proper harvesting timing, cleaning, drying, and storage reduce post-harvest losses. Moisture content should be 12-14% for safe storage. Use of hermetic storage, improved storage structures prevent pest damage and quality deterioration.",
    url := some "https://icar.org.in/post-harvest",
    snippet := some "Proper harvesting, drying to 12-14% moisture, and improved storage structures significantly reduce post-harvest losses and maintain quality." }]

/-- Embedding of `DocumentRetriever._load_documents`.  `dbDocs` is the
outcome of the Supabase `docs` table select: `none` when the DB is not
connected, `some (.error ())` when the select raises (caught), and
`some (.ok data)` for returned rows.  Corpus embeddings are computed only
on the built-in fallback branch, and only when the sentence-transformer
model loaded; `encodeCorpus` is that model call (its exception is caught,
leaving the embeddings absent).  Every built-in document carries a
`content` key, so the `getD` default is never consulted there. -/
def load_documents (dbDocs : Option (Except Unit (List Doc))) (modelLoaded : Bool)
    (encodeCorpus : List String → Except Unit (List (List ℚ))) :
    List Doc × Option (List (List ℚ)) :=
  let fallback :=
    let docs := get_fallback_documents
    let embs :=
      if modelLoaded then
        match encodeCorpus (docs.map (fun d => d.content.getD "")) with
        | .ok e => some e
        | .error _ => none
      else none
    (docs, embs)
  match dbDocs with
  | some (.ok data) => if data.isEmpty then fallback else (data, none)
  | _ => fallback

/-- The descending-by-similarity ordering required of retrieval output. -/
def SortedDescSim (l : List (Doc × ℚ)) : Prop :=
  List.Pairwise (fun a b : Doc × ℚ => b.2 ≤ a.2) l

/-- The surviving keyword ranking before truncation: every positively
scored document in corpus order, stable-sorted descending by score. -/
def kwRanked (q : String) (docs : List Doc) : List (Doc × ℚ) :=
  pySortDesc (fun p : Doc × ℚ => p.2)
    ((docs.filter (fun d => decide (0 < kwScore (wordSet q) d))).map
      (fun d => (d, (kwScore (wordSet q) d : ℚ))))

/-- Number of retrieved documents, among the first three, that carry a
non-empty snippet — the quantity the fallback confidence actually counts. -/
def snipCount (docs : List Doc) : ℕ :=
  ((docs.take 3).filter (fun d => truthyStr d.snippet)).length

/-- One rule of the fallback answer cascade, as the spec describes it: a
predicate on the lowercased query and the optional image context, and a
template rendering the answer from the query, snippets and context. -/
structure AnswerRule where
  applies : String → Option String → Bool
  render : String → List String → Option String → String

/-- The fallback answer cascade as an ordered rule list, following the
spec's description: image context present → irrigation/weather →
pest/disease → planting → market/price → generic catch-all. -/
def answerRules : List AnswerRule := [
  { applies := fun _ img => truthyStr img,
    render := fun ql snips img =>
      let ctx := img.getD ""
      if substrMem "disease" ql || substrMem "pest" ql then
        "Based on the uploaded image showing " ++ ctx ++
          ", I can see potential issues that may require attention. " ++
          (if snips.isEmpty then
            "Please consult with a local agricultural expert for proper diagnosis and treatment recommendations."
          else String.intercalate " " (snips.take 2))
      else
        "From the uploaded image of " ++ ctx ++ ", " ++
          (if snips.isEmpty then
            "this appears to be a healthy crop. Continue with regular care and monitoring."
          else String.intercalate " " (snips.take 2)) },
  { applies := fun ql _ => hasAnyWord ["irrigate", "water", "rain", "weather"] ql,
    render := fun _ snips _ =>
      match snips with
      | s :: _ => "For irrigation timing, consider soil moisture, weather conditions, and crop growth stage." ++ " " ++ s
      | [] => "For irrigation timing, consider soil moisture, weather conditions, and crop growth stage." ++ " Check soil moisture at 6-inch depth and irrigate when it feels dry." },
  { applies := fun ql _ => hasAnyWord ["pest", "disease", "insect", "fungus"] ql,
    render := fun _ snips _ =>
      match snips with
      | s :: _ => "For pest and disease management, early identification and integrated pest management are key." ++ " " ++ s
      | [] => "For pest and disease management, early identification and integrated pest management are key." ++ " Monitor crops regularly and consult local agricultural extension services for specific treatments." },
  { applies := fun ql _ => hasAnyWord ["plant", "sow", "seed", "timing"] ql,
    render := fun _ snips _ =>
      match snips with
      | s :: _ => "Planting timing depends on local climate, soil conditions, and crop variety." ++ " " ++ s
      | [] => "Planting timing depends on local climate, soil conditions, and crop variety." ++ " Consult your local agricultural calendar and weather forecasts for optimal timing." },
  { applies := fun ql _ => hasAnyWord ["price", "market", "sell", "buy"] ql,
    render := fun _ snips _ =>
      match snips with
      | s :: _ => "Market prices fluctuate based on supply, demand, and seasonal factors." ++ " " ++ s
      | [] => "Market prices fluctuate based on supply, demand, and seasonal factors." ++ " Check local mandi prices and consider storage options during peak harvest." },
  { applies := fun _ _ => true,
    render := fun _ snips _ =>
      if snips.isEmpty then
        "For specific agricultural advice, I recommend consulting with your local Krishi Vigyan Kendra (KVK) or agricultural extension officer who can provide guidance tailored to your local conditions and crops."
      else
        "Based on agricultural best practices: " ++ String.intercalate " " (snips.take 2) }]

/-- First-match-wins evaluation of the answer cascade over the rule list. -/
def cascadeAnswer (query : String) (snippets : List String)
    (img : Option String) : String :=
  match answerRules.find? (fun r => r.applies query.toLower img) with
  | some r => r.render query.toLower snippets img
  | none => ""

/-- The generation response used to refute the claimed confidence bound:
a well-formed answer object whose confidence is 0.9. -/
def c1AiResponse : Json :=
  Json.obj [("answer", Json.str "ok"), ("confidence", Json.num (9/10)),
    ("actions", Json.arr []), ("sources", Json.arr [])]

/-- A retrieved document whose `snippet` key holds the empty string: it is
counted by `len(retrieved_docs)` but not by the fallback confidence. -/
def c2EmptySnippetDoc : Doc :=
  { title := some "t", content := some "c", url := some "u",
    snippet := some "" }

/-- Modelled from the spec: the contract of the remote vector-search
collaborator (the Supabase `match_documents` RPC, whose implementation is
not part of this repository).  Per §4.3/§6 it performs top-k lookup: it
returns at most `k` rows, sorted descending by similarity. -/
def remoteContract (k : ℕ) (data : List (Doc × ℚ)) : Prop :=
  data.length ≤ k ∧ SortedDescSim data

/-- The environment witnessing C3 at a concrete input: an empty corpus
with no collaborators configured. -/
def c3WitnessEnv : RetrieveEnv :=
  { documents := [], modelLoaded := false, dbRpc := none,
    queryEncode := Except.error (), embeddings := none }

/-- First document of the C5 tie corpus. -/
def c5DocA : Doc := { id := some "A" }

/-- Second document of the C5 tie corpus. -/
def c5DocB : Doc := { id := some "B" }

/-- A local-embedding-mode environment in which both corpus vectors have
the same similarity to the query embedding (zero-dimensional embeddings,
so both dot products are the literal 0): an all-tie ranking. -/
def c5Env : RetrieveEnv :=
  { documents := [c5DocA, c5DocB], modelLoaded := true, dbRpc := none,
    queryEncode := Except.ok [], embeddings := some [[], []] }

/-- The single-document corpus of the C10 witness. -/
def c10Doc : Doc := { title := some "T", content := some "c" }

/-- Corpus encoder of the C10 witness (never invoked on the DB branch). -/
def c10Enc : List String → Except Unit (List (List ℚ)) :=
  fun _ => Except.error ()

lemma keyLex_le {α : Type*} {f : α → ℚ} {g : α → ℕ} {a b : α}
    (h : keyLex f g a b) : f a ≤ f b := by
  rcases h with h | ⟨h, _⟩
  · exact h.le
  · exact h.le

lemma pairwise_keyLex_insertionSort {α : Type*} (f : α → ℚ) (g : α → ℕ)
    (l : List α) :
    List.Pairwise (keyLex f g) (l.insertionSort (keyLex f g)) :=
  List.sorted_insertionSort _ l

lemma enum_pairwise_fst_lt {α : Type*} (l : List α) :
    List.Pairwise (fun a b : ℕ × α => a.1 < b.1) l.enum := by
  have h : List.Pairwise (· < ·) (l.enum.map Prod.fst) := by
    rw [List.enum_map_fst]; exact List.pairwise_lt_range _
  exact List.pairwise_map.mp h

lemma getD_of_mem_enum {α : Type*} {l : List α} {p : ℕ × α}
    (h : p ∈ l.enum) (d : α) : l.getD p.1 d = p.2 := by
  rw [List.getD_eq_getElem?_getD, List.mem_enum_iff_getElem?.mp h]; rfl

lemma pySortDesc_perm {α : Type*} (sc : α → ℚ) (l : List α) :
    (pySortDesc sc l).Perm l := by
  unfold pySortDesc
  have h := (List.perm_insertionSort
    (keyLex (fun p : ℕ × α => -(sc p.2)) Prod.fst) l.enum).map Prod.snd
  rwa [List.enum_map_snd] at h

lemma pySortDesc_pairwise {α : Type*} (sc : α → ℚ) (l : List α) :
    List.Pairwise (fun a b => sc b ≤ sc a) (pySortDesc sc l) := by
  unfold pySortDesc
  refine List.Pairwise.map _ ?_ (pairwise_keyLex_insertionSort _ _ _)
  intro a b hab
  have h := keyLex_le hab
  simpa using h

lemma pySortDesc_filter {α : Type*} (sc : α → ℚ) (l : List α) (v : ℚ) :
    (pySortDesc sc l).filter (fun a => decide (sc a = v)) =
      l.filter (fun a => decide (sc a = v)) := by
  classical
  set r := keyLex (fun p : ℕ × α => -(sc p.2)) Prod.fst with hr
  set E := l.enum.insertionSort r with hE
  set P : ℕ × α → Bool := fun p => decide (sc p.2 = v) with hP
  have hperm : E.Perm l.enum := List.perm_insertionSort r l.enum
  have hcomm : ∀ L : List (ℕ × α),
      (L.map Prod.snd).filter (fun a => decide (sc a = v)) =
        (L.filter P).map Prod.snd := by
    intro L
    rw [List.filter_map]
    rfl
  have key : E.filter P = l.enum.filter P := by
    have hpermF : (E.filter P).Perm (l.enum.filter P) := hperm.filter P
    have hR : List.Pairwise (fun a b : ℕ × α => a.1 < b.1) (l.enum.filter P) :=
      List.Pairwise.sublist (List.filter_sublist _) (enum_pairwise_fst_lt l)
    have hsort : List.Pairwise r (E.filter P) :=
      List.Pairwise.sublist (List.filter_sublist E)
        (pairwise_keyLex_insertionSort _ _ _)
    have hfstnd : List.Pairwise (fun a b : ℕ × α => a.1 ≠ b.1) (E.filter P) := by
      have hnodR : ((l.enum.filter P).map Prod.fst).Nodup := by
        have hsub : ((l.enum.filter P).map Prod.fst).Sublist (l.enum.map Prod.fst) :=
          (List.filter_sublist _).map _
        rw [List.enum_map_fst] at hsub
        exact List.Nodup.sublist hsub (List.nodup_range _)
      have hnodL : ((E.filter P).map Prod.fst).Nodup :=
        ((hpermF.map Prod.fst).nodup_iff).mpr hnodR
      exact List.pairwise_map.mp hnodL
    have hL : List.Pairwise (fun a b : ℕ × α => a.1 < b.1) (E.filter P) := by
      refine (hsort.and hfstnd).imp_of_mem ?_
      intro a b ha hb hab
      have hav : sc a.2 = v := by
        have := List.of_mem_filter ha; simpa [hP] using this
      have hbv : sc b.2 = v := by
        have := List.of_mem_filter hb; simpa [hP] using this
      rcases hab.1 with h | ⟨_, hle⟩
      · exfalso; simp only [hav, hbv] at h
        exact lt_irrefl _ h
      · exact lt_of_le_of_ne hle hab.2
    haveI : IsAntisymm (ℕ × α) (fun a b : ℕ × α => a.1 < b.1) :=
      ⟨fun a b h1 h2 => absurd (h1.trans h2) (lt_irrefl _)⟩
    exact List.eq_of_perm_of_sorted hpermF hL hR
  calc (pySortDesc sc l).filter (fun a => decide (sc a = v))
      = (E.filter P).map Prod.snd := hcomm E
    _ = (l.enum.filter P).map Prod.snd := by rw [key]
    _ = l.filter (fun a => decide (sc a = v)) := by
        rw [← hcomm, List.enum_map_snd]

lemma argsortAsc_perm (vals : List ℚ) :
    (argsortAsc vals).Perm (List.range vals.length) := by
  unfold argsortAsc
  have h := (List.perm_insertionSort
    (keyLex (fun p : ℕ × ℚ => p.2) Prod.fst) vals.enum).map Prod.fst
  rwa [List.enum_map_fst] at h

lemma argsortAsc_length (vals : List ℚ) :
    (argsortAsc vals).length = vals.length := by
  rw [(argsortAsc_perm vals).length_eq, List.length_range]

lemma argsortAsc_mem_lt {vals : List ℚ} {i : ℕ}
    (h : i ∈ argsortAsc vals) : i < vals.length :=
  List.mem_range.mp ((argsortAsc_perm vals).mem_iff.mp h)

lemma argsortAsc_pairwise (vals : List ℚ) :
    List.Pairwise (fun i j => vals.getD i 0 < vals.getD j 0 ∨
      (vals.getD i 0 = vals.getD j 0 ∧ i < j)) (argsortAsc vals) := by
  unfold argsortAsc
  set r := keyLex (fun p : ℕ × ℚ => p.2) Prod.fst with hrdef
  set E := vals.enum.insertionSort r with hEdef
  have hperm : E.Perm vals.enum := List.perm_insertionSort r vals.enum
  have hsort : List.Pairwise r E := pairwise_keyLex_insertionSort _ _ _
  have hnd : List.Pairwise (fun a b : ℕ × ℚ => a.1 ≠ b.1) E := by
    have hnodR : (vals.enum.map Prod.fst).Nodup := by
      rw [List.enum_map_fst]; exact List.nodup_range _
    have hnodL : (E.map Prod.fst).Nodup :=
      ((hperm.map Prod.fst).nodup_iff).mpr hnodR
    exact List.pairwise_map.mp hnodL
  have key : List.Pairwise (fun a b : ℕ × ℚ =>
      vals.getD a.1 0 < vals.getD b.1 0 ∨
        (vals.getD a.1 0 = vals.getD b.1 0 ∧ a.1 < b.1)) E := by
    refine (hsort.and hnd).imp_of_mem ?_
    intro a b ha hb hab
    have ha2 : vals.getD a.1 0 = a.2 := getD_of_mem_enum (hperm.subset ha) 0
    have hb2 : vals.getD b.1 0 = b.2 := getD_of_mem_enum (hperm.subset hb) 0
    rcases hab.1 with h | ⟨he, hle⟩
    · left; rw [ha2, hb2]; exact h
    · right
      exact ⟨by rw [ha2, hb2]; exact he, lt_of_le_of_ne hle hab.2⟩
  exact List.pairwise_map.mpr key

lemma argsortAsc_map_getD (vals : List ℚ) :
    (argsortAsc vals).map (fun i => vals.getD i 0) =
      vals.insertionSort (· ≤ ·) := by
  unfold argsortAsc
  set r := keyLex (fun p : ℕ × ℚ => p.2) Prod.fst with hrdef
  set E := vals.enum.insertionSort r with hEdef
  have hperm : E.Perm vals.enum := List.perm_insertionSort r vals.enum
  have h1 : (E.map Prod.fst).map (fun i => vals.getD i 0) = E.map Prod.snd := by
    rw [List.map_map]
    refine List.map_congr_left ?_
    intro p hp
    exact getD_of_mem_enum (hperm.subset hp) 0
  rw [h1]
  have hsorted : List.Pairwise (fun a b : ℚ => a ≤ b) (E.map Prod.snd) := by
    refine List.Pairwise.map _ ?_ (pairwise_keyLex_insertionSort _ _ _)
    intro a b hab; exact keyLex_le hab
  have hpermv : (E.map Prod.snd).Perm vals := by
    have h := hperm.map Prod.snd; rwa [List.enum_map_snd] at h
  have h2 : (vals.insertionSort (· ≤ ·)).Perm vals :=
    List.perm_insertionSort _ _
  have h3 : List.Pairwise (fun a b : ℚ => a ≤ b)
      (vals.insertionSort (· ≤ ·)) :=
    List.sorted_insertionSort _ _
  exact List.eq_of_perm_of_sorted (hpermv.trans h2.symm) hsorted h3

lemma localSim_ok {documents : List Doc} {qe : List ℚ} {embs : List (List ℚ)}
    {k : ℕ} {r : List (Doc × ℚ)}
    (h : localSim documents qe embs k = .ok r) :
    r.length = min k embs.length ∧ SortedDescSim r ∧
    r = ((argsortAsc (embs.map (dotQ qe))).reverse.take k).map
      (fun i =>
        (documents.getD i default, (embs.map (dotQ qe)).getD i 0)) := by
  unfold localSim at h
  split at h
  case isFalse => simp at h
  simp only [] at h
  split at h
  case isFalse => simp at h
  case isTrue hall =>
    have hr : r = ((argsortAsc (embs.map (dotQ qe))).reverse.take k).map
        (fun i =>
          (documents.getD i default, (embs.map (dotQ qe)).getD i 0)) := by
      injection h with h'
      exact h'.symm
    subst hr
    refine ⟨?_, ?_, rfl⟩
    · rw [List.length_map, List.length_take, List.length_reverse,
        argsortAsc_length, List.length_map]
    · set vals := embs.map (dotQ qe) with hvals
      have hasc : List.Pairwise (fun i j => vals.getD i 0 ≤ vals.getD j 0)
          (argsortAsc vals) := by
        refine (argsortAsc_pairwise vals).imp ?_
        intro i j hij
        rcases hij with h' | ⟨h', _⟩
        · exact h'.le
        · exact h'.le
      have hdesc : List.Pairwise (fun i j => vals.getD j 0 ≤ vals.getD i 0)
          (argsortAsc vals).reverse := List.pairwise_reverse.mpr hasc
      have htake := List.Pairwise.sublist
        (List.take_sublist k (argsortAsc vals).reverse) hdesc
      exact List.Pairwise.map _ (fun i j hij => hij) htake

lemma scored_filterMap (qw : List String) (docs : List Doc) :
    (docs.filterMap (fun d =>
      if 0 < kwScore qw d then some (d, (kwScore qw d : ℚ)) else none)) =
    (docs.filter (fun d => decide (0 < kwScore qw d))).map
      (fun d => (d, (kwScore qw d : ℚ))) := by
  induction docs with
  | nil => rfl
  | cons d t ih =>
      by_cases h : 0 < kwScore qw d <;>
        simp [List.filterMap_cons, List.filter_cons, h, ih]

lemma keyword_search_eq (q : String) (k : ℕ) (docs : List Doc) :
    keyword_search q k docs = (kwRanked q docs).take k := by
  unfold keyword_search kwRanked
  simp only []
  rw [scored_filterMap]

lemma keyword_search_length (q : String) (k : ℕ) (docs : List Doc) :
    (keyword_search q k docs).length =
      min k ((docs.filter (fun d => decide (0 < kwScore (wordSet q) d))).length) := by
  rw [keyword_search_eq, List.length_take]
  unfold kwRanked
  rw [(pySortDesc_perm _ _).length_eq, List.length_map]

lemma keyword_search_pairwise (q : String) (k : ℕ) (docs : List Doc) :
    SortedDescSim (keyword_search q k docs) := by
  rw [keyword_search_eq]
  exact List.Pairwise.sublist (List.take_sublist _ _)
    (pySortDesc_pairwise _ _)

lemma keyword_search_mem {q : String} {k : ℕ} {docs : List Doc}
    {p : Doc × ℚ} (h : p ∈ keyword_search q k docs) :
    p.1 ∈ docs ∧ p.2 = (kwScore (wordSet q) p.1 : ℚ) ∧
      0 < kwScore (wordSet q) p.1 := by
  rw [keyword_search_eq] at h
  have h1 : p ∈ kwRanked q docs := List.mem_of_mem_take h
  have h2 := (pySortDesc_perm _ _).subset h1
  obtain ⟨d, hd, rfl⟩ := List.mem_map.mp h2
  have hd1 := List.mem_of_mem_filter hd
  have hd2 : (0 < kwScore (wordSet q) d) := by
    have := List.of_mem_filter hd; simpa using this
  exact ⟨hd1, rfl, hd2⟩

lemma retrieve_result (env : RetrieveEnv) (q : String) (k : ℕ) :
    (env.documents.isEmpty = true ∧ retrieve env q k = []) ∨
    retrieve env q k = keyword_search q k env.documents ∨
    (∃ data, env.dbRpc = some (Except.ok data) ∧ data.isEmpty = false ∧
      retrieve env q k = data) ∨
    (∃ qe embs r, env.queryEncode = Except.ok qe ∧
      env.embeddings = some embs ∧
      localSim env.documents qe embs k = Except.ok r ∧
      retrieve env q k = r) := by
  obtain ⟨docs, ml, db, enc, embsO⟩ := env
  by_cases h1 : docs.isEmpty
  · exact Or.inl ⟨h1, by unfold retrieve; simp [h1]⟩
  rcases ml with _ | _
  · exact Or.inr (Or.inl (by unfold retrieve; simp [h1]))
  rcases enc with e | qe
  · refine Or.inr (Or.inl ?_)
    unfold retrieve
    rcases db with _ | rpc
    · simp [h1]
    · rcases rpc with e' | data
      · simp [h1]
      · by_cases hd : data.isEmpty <;> simp [h1, hd]
  · have hremoteNone :
        (∀ data, (db = some (Except.ok data) → data.isEmpty = true)) ∨
        (∃ data, db = some (Except.ok data) ∧ data.isEmpty = false) := by
      rcases db with _ | rpc
      · exact Or.inl (by intro data h; cases h)
      · rcases rpc with e' | data
        · exact Or.inl (by intro data h; simp at h)
        · by_cases hd : data.isEmpty
          · refine Or.inl ?_
            intro data' h
            simp only [Option.some.injEq, Except.ok.injEq] at h
            rw [← h]
            exact hd
          · exact Or.inr ⟨data, rfl, by simpa using hd⟩
    rcases hremoteNone with hnone | ⟨data, hdb, hd⟩
    · rcases embsO with _ | embs
      · refine Or.inr (Or.inl ?_)
        unfold retrieve
        rcases db with _ | rpc
        · simp [h1]
        · rcases rpc with e' | data
          · simp [h1]
          · have hd := hnone data rfl
            simp [h1, hd]
      · rcases hloc : localSim docs qe embs k with e' | r
        · refine Or.inr (Or.inl ?_)
          unfold retrieve
          rcases db with _ | rpc
          · simp [h1, hloc]
          · rcases rpc with e' | data
            · simp [h1, hloc]
            · have hd := hnone data rfl
              simp [h1, hd, hloc]
        · refine Or.inr (Or.inr (Or.inr ⟨qe, embs, r, rfl, rfl, hloc, ?_⟩))
          unfold retrieve
          rcases db with _ | rpc
          · simp [h1, hloc]
          · rcases rpc with e' | data
            · simp [h1, hloc]
            · have hd := hnone data rfl
              simp [h1, hd, hloc]
    · subst hdb
      refine Or.inr (Or.inr (Or.inl ⟨data, rfl, hd, ?_⟩))
      unfold retrieve
      simp [h1, hd]

lemma eq_empty_of_length_zero {s : String} (h : s.length = 0) : s = "" := by
  cases s with
  | mk data =>
    cases data with
    | nil => rfl
    | cons c cs => simp [String.length] at h

lemma append_ne_empty_left (a b : String) (ha : a ≠ "") : a ++ b ≠ "" := by
  intro h
  apply ha
  have hlen := congrArg String.length h
  rw [String.length_append] at hlen
  have h0 : a.length = 0 := by
    have h1 : String.length "" = 0 := rfl
    omega
  exact eq_empty_of_length_zero h0

lemma generate_contextual_answer_ne_empty (q : String) (snips : List String)
    (img : Option String) : generate_contextual_answer q snips img ≠ "" := by
  unfold generate_contextual_answer
  simp only []
  repeat' split
  all_goals repeat apply append_ne_empty_left
  all_goals decide

lemma generate_actions_length (q : String) (img : Option String) :
    (generate_actions q img).length = 3 := by
  unfold generate_actions
  by_cases h1 : (truthyStr img || hasAnyWord ["disease", "pest", "problem"] q.toLower) = true <;>
  by_cases h2 : hasAnyWord ["irrigate", "water"] q.toLower = true <;>
  by_cases h3 : hasAnyWord ["plant", "sow", "seed"] q.toLower = true <;>
  by_cases h4 : hasAnyWord ["market", "price", "sell"] q.toLower = true <;>
  simp [h1, h2, h3, h4]

lemma truthyStr_true {o : Option String} (h : truthyStr o = true) :
    ∃ s, o = some s ∧ s ≠ "" := by
  cases o with
  | none => simp [truthyStr] at h
  | some s => exact ⟨s, rfl, by simpa [truthyStr] using h⟩

lemma filterMap_snippet_length (l : List Doc) :
    (l.filterMap (fun d =>
      if truthyStr d.snippet then d.snippet else none)).length =
    (l.filter (fun d => truthyStr d.snippet)).length := by
  induction l with
  | nil => rfl
  | cons d t ih =>
      by_cases h : truthyStr d.snippet
      · obtain ⟨s, hs, -⟩ := truthyStr_true h
        have h' : truthyStr (some s) = true := by rw [← hs]; exact h
        simp [List.filterMap_cons, List.filter_cons, hs, h', ih]
      · simp [List.filterMap_cons, List.filter_cons, h, ih]

lemma fallback_confidence (dm : Bool) (p : String) (docs : List Doc)
    (img : Option String) :
    confidenceOf (deterministic_fallback dm p docs img) =
      some (min (8/10) (4/10 + (snipCount docs : ℚ) * (1/10))) := by
  unfold deterministic_fallback confidenceOf getField snipCount
  simp [List.find?, filterMap_snippet_length]

/-- C6: the fallback answer text is selected by the fixed priority cascade
image-context → irrigation/weather → pest/disease → planting →
market/price → generic, evaluated first-match-wins: the source cascade of
nested conditionals computes exactly the first-match evaluation of the
ordered rule list `answerRules`, each branch appending the first one or
two snippets when present and a static default sentence otherwise. -/
theorem c6_answer_cascade (q : String) (snips : List String)
    (img : Option String) :
    generate_contextual_answer q snips img = cascadeAnswer q snips img := by
  unfold generate_contextual_answer cascadeAnswer answerRules
  simp only []
  by_cases h1 : truthyStr img = true <;>
  by_cases h3 : hasAnyWord ["irrigate", "water", "rain", "weather"] q.toLower = true <;>
  by_cases h4 : hasAnyWord ["pest", "disease", "insect", "fungus"] q.toLower = true <;>
  by_cases h5 : hasAnyWord ["plant", "sow", "seed", "timing"] q.toLower = true <;>
  by_cases h6 : hasAnyWord ["price", "market", "sell", "buy"] q.toLower = true <;>
  simp [List.find?, h1, h3, h4, h5, h6]

/-- C1 is false as stated: when the generation backend's response is
accepted (valid JSON object with the four required fields), `synthesize`
returns the response's own confidence unchecked.  With confidence 0.9 the
accepted answer is tagged `meta.mode = "ai"` and its confidence exceeds
0.8. -/
theorem c1_counterexample :
    ∃ j, synthesize_answer "m" false (some (some c1AiResponse)) "q" [] none =
        Except.ok j ∧
      confidenceOf j = some (9/10) ∧
      getField j "meta" =
        some (Json.obj [("mode", Json.str "ai"), ("model", Json.str "m")]) ∧
      ¬((9/10 : ℚ) ≤ 8/10) := by
  refine ⟨_, rfl, rfl, rfl, by norm_num⟩

/-- C1 (amended): the confidence of every answer produced by the
deterministic fallback path lies in [0, 0.8]; an accepted generation
response's confidence is returned as-is and is not subject to the bound. -/
theorem c1_amended_fallback_confidence_bounds (dm : Bool) (p : String)
    (docs : List Doc) (img : Option String) :
    ∃ c : ℚ, confidenceOf (deterministic_fallback dm p docs img) = some c ∧
      0 ≤ c ∧ c ≤ 8/10 := by
  refine ⟨_, fallback_confidence dm p docs img, ?_, min_le_left _ _⟩
  refine le_min (by norm_num) ?_
  positivity

/-- C2 is false as stated: the fallback confidence counts only the
retrieved documents (among the first three) whose snippet is non-empty,
not all retrieved documents.  One retrieved document with an empty
snippet yields confidence 0.4, while the claimed formula
min(0.8, 0.4 + 0.1 × min(3, count)) gives 0.5. -/
theorem c2_counterexample :
    confidenceOf (deterministic_fallback true "q" [c2EmptySnippetDoc] none) =
      some (2/5) ∧
    min (8/10 : ℚ)
      (4/10 + 1/10 * (min 3 (([c2EmptySnippetDoc] : List Doc).length : ℚ))) =
      1/2 ∧
    (2/5 : ℚ) ≠ 1/2 := by
  refine ⟨?_, by norm_num, by norm_num⟩
  rw [fallback_confidence]
  norm_num [snipCount, c2EmptySnippetDoc, truthyStr]

/-- C2 (amended): the fallback confidence equals
min(0.8, 0.4 + 0.1 × (number of non-empty snippets among the first three
retrieved documents)); that expression is monotonically non-decreasing in
the snippet count, and the confidence is independent of the query text
and the image context. -/
theorem c2_amended_confidence_formula (dm dm' : Bool) (p p' : String)
    (docs : List Doc) (img img' : Option String) :
    confidenceOf (deterministic_fallback dm p docs img) =
      some (min (8/10) (4/10 + (snipCount docs : ℚ) * (1/10))) ∧
    Monotone (fun n : ℕ => min (8/10 : ℚ) (4/10 + (n : ℚ) * (1/10))) ∧
    confidenceOf (deterministic_fallback dm p docs img) =
      confidenceOf (deterministic_fallback dm' p' docs img') := by
  refine ⟨fallback_confidence dm p docs img, ?_, ?_⟩
  · intro a b hab
    have hc : ((a : ℕ) : ℚ) ≤ ((b : ℕ) : ℚ) := by exact_mod_cast hab
    exact min_le_min le_rfl (by linarith)
  · rw [fallback_confidence, fallback_confidence]

/-- C7 is refuted on a boundary input the claim covers: a generation
response that parses as JSON but is not an object (here the number 123)
has every required field missing, yet the code raises `TypeError` inside
`_validate_response` (`"answer" in 123`) instead of returning the
fallback answer; for the caught shapes (unparseable text, object missing
fields) the fallback equality does hold. -/
theorem c7_nonobject_response_raises :
    synthesize_answer "m" false (some (some (Json.num 123))) "q" [] none =
      Except.error PyError.typeError ∧
    synthesize_answer "m" false (some none) "q" [] none =
      Except.ok (deterministic_fallback false "q" [] none) ∧
    synthesize_answer "m" false (some (some (Json.obj [("answer", Json.str "a")])))
        "q" [] none =
      Except.ok (deterministic_fallback false "q" [] none) := by
  exact ⟨rfl, rfl, rfl⟩

/-- C9 is refuted: `synthesize` can propagate an exception.  A generation
response that is a JSON string containing the four field names as
substrings passes `_validate_response` (Python `in` on a string is a
substring test), and the subsequent item assignment
`parsed["meta"] = ...` on a string raises `TypeError`, which no handler
catches. -/
theorem c9_string_response_raises :
    validate_response (Json.str "answer confidence actions sources") =
      Except.ok true ∧
    synthesize_answer "m" false
        (some (some (Json.str "answer confidence actions sources")))
        "q" [] none =
      Except.error PyError.typeError := by
  constructor
  · rfl
  · rfl

/-- C8: with no generation backend configured (demo mode) and no retrieved
documents, `synthesize` returns the fallback answer with a non-empty
answer text, exactly three actions, an empty sources list, and
confidence exactly 0.4, for every query and image context. -/
theorem c8_empty_docs_no_backend (m p : String) (hf : Option (Option Json))
    (img : Option String) :
    ∃ j, synthesize_answer m true hf p [] img = Except.ok j ∧
      (∃ a, getField j "answer" = some (Json.str a) ∧ a ≠ "") ∧
      (∃ acts, getField j "actions" = some (Json.arr acts) ∧
        acts.length = 3) ∧
      getField j "sources" = some (Json.arr []) ∧
      confidenceOf j = some (4/10) := by
  refine ⟨deterministic_fallback true p [] img, rfl, ?_, ?_, ?_, ?_⟩
  · refine ⟨generate_contextual_answer p [] img, ?_,
      generate_contextual_answer_ne_empty p [] img⟩
    unfold deterministic_fallback getField
    simp [List.find?]
  · refine ⟨(generate_actions p img).map Json.str, ?_, ?_⟩
    · unfold deterministic_fallback getField
      simp [List.find?]
    · rw [List.length_map]; exact generate_actions_length p img
  · unfold deterministic_fallback getField
    simp [List.find?]
  · rw [fallback_confidence]
    norm_num [snipCount]

/-- C3: `retrieve` returns at most `k` results, sorted descending by the
similarity score of whichever single strategy produced them (the remote
strategy under its spec-modelled contract), and on an empty corpus it
returns `[]` unconditionally.  Totality is by construction: the embedding
is a total function over every collaborator outcome, mirroring the
source's catch-all exception handlers. -/
theorem c3_retrieve_topk_sorted_total (env : RetrieveEnv) (q : String)
    (k : ℕ)
    (hremote : ∀ data, env.dbRpc = some (Except.ok data) →
      remoteContract k data) :
    (retrieve env q k).length ≤ k ∧ SortedDescSim (retrieve env q k) ∧
    (env.documents = [] → retrieve env q k = []) := by
  have h3 : env.documents = [] → retrieve env q k = [] := by
    intro hd
    unfold retrieve
    simp [hd]
  refine ⟨?_, ?_, h3⟩ <;>
  · rcases retrieve_result env q k with ⟨he, hr⟩ | hr |
      ⟨data, hdb, hne, hr⟩ | ⟨qe, embs, r, henc, hembs, hloc, hr⟩
    · rw [hr]
      first
        | simp
        | exact List.Pairwise.nil
    · rw [hr]
      first
        | (rw [keyword_search_length]; exact min_le_left _ _)
        | exact keyword_search_pairwise q k _
    · obtain ⟨hlen, hsort⟩ := hremote data hdb
      rw [hr]
      first
        | exact hlen
        | exact hsort
    · obtain ⟨hlen, hsort, -⟩ := localSim_ok hloc
      rw [hr]
      first
        | (rw [hlen]; exact min_le_left _ _)
        | exact hsort

/-- Witness for C3 at a concrete environment and k = 3. -/
theorem c3_retrieve_topk_sorted_total_witness :
    (retrieve c3WitnessEnv "q" 3).length ≤ 3 ∧
    SortedDescSim (retrieve c3WitnessEnv "q" 3) ∧
    (c3WitnessEnv.documents = [] → retrieve c3WitnessEnv "q" 3 = []) :=
  c3_retrieve_topk_sorted_total c3WitnessEnv "q" 3
    (fun _ h => Option.noConfusion h)

/-- C4: keyword-overlap retrieval scores every document as
2·|query∩title| + |query∩content| over lowercase whitespace word sets,
excludes zero-scoring documents entirely (the result length is the
minimum of k and the number of positively scored documents, so zero
scorers never pad a short result), and returns the survivors top-k by
score descending; stability on ties is the last conjunct: within every
score class the ranking preserves corpus order exactly. -/
theorem c4_keyword_mode_spec (q : String) (k : ℕ) (docs : List Doc) :
    keyword_search q k docs = (kwRanked q docs).take k ∧
    (∀ p ∈ keyword_search q k docs,
      p.2 = (kwScore (wordSet q) p.1 : ℚ) ∧
      0 < kwScore (wordSet q) p.1 ∧ p.1 ∈ docs) ∧
    (keyword_search q k docs).length =
      min k ((docs.filter (fun d => decide (0 < kwScore (wordSet q) d))).length) ∧
    SortedDescSim (keyword_search q k docs) ∧
    (∀ v : ℚ, (kwRanked q docs).filter (fun p => decide (p.2 = v)) =
      ((docs.filter (fun d => decide (0 < kwScore (wordSet q) d))).map
        (fun d => (d, (kwScore (wordSet q) d : ℚ)))).filter
          (fun p => decide (p.2 = v))) := by
  refine ⟨keyword_search_eq q k docs, ?_, keyword_search_length q k docs,
    keyword_search_pairwise q k docs, ?_⟩
  · intro p hp
    obtain ⟨h1, h2, h3⟩ := keyword_search_mem hp
    exact ⟨h2, h3, h1⟩
  · intro v
    unfold kwRanked
    exact pySortDesc_filter _ _ v

/-- C5 is false as stated: with two equal-similarity documents, local
embedding retrieval returns the later-loaded document first —
`np.argsort(similarities)[::-1]` reverses the stable ascending order, so
ties come out in reverse load order, not original load order. -/
theorem c5_counterexample :
    c5Env.documents = [c5DocA, c5DocB] ∧
    retrieve c5Env "q" 2 = [(c5DocB, 0), (c5DocA, 0)] ∧
    c5DocB ≠ c5DocA := by
  refine ⟨rfl, ?_, by decide⟩
  rfl

/-- C5 (amended): in local embedding mode `retrieve` returns the k
highest-similarity documents — the returned score sequence is exactly the
k largest similarities in descending order, each paired with a corpus
document at an index attaining that score — and ties between equal-score
documents appear in REVERSE load order (the selected index sequence is
strictly descending within every score class), not original load order. -/
theorem c5_amended_local_topk (env : RetrieveEnv) (q : String) (k : ℕ)
    (qe : List ℚ) (embs : List (List ℚ))
    (hne : env.documents ≠ [])
    (hml : env.modelLoaded = true)
    (hdb : env.dbRpc = none)
    (henc : env.queryEncode = Except.ok qe)
    (hembs : env.embeddings = some embs)
    (hdim : embs.all (fun row => row.length = qe.length) = true)
    (hlen : embs.length = env.documents.length) :
    (retrieve env q k).length = min k env.documents.length ∧
    SortedDescSim (retrieve env q k) ∧
    (retrieve env q k).map (fun p => p.2) =
      (((embs.map (dotQ qe)).insertionSort (· ≤ ·)).reverse).take k ∧
    ∃ sel : List ℕ,
      retrieve env q k = sel.map (fun i =>
        (env.documents.getD i default, (embs.map (dotQ qe)).getD i 0)) ∧
      (∀ i ∈ sel, i < env.documents.length) ∧
      List.Pairwise (fun i j =>
        (embs.map (dotQ qe)).getD j 0 < (embs.map (dotQ qe)).getD i 0 ∨
          ((embs.map (dotQ qe)).getD i 0 = (embs.map (dotQ qe)).getD j 0 ∧
            j < i)) sel := by
  set vals := embs.map (dotQ qe) with hvals
  have hvlen : vals.length = env.documents.length := by
    rw [hvals, List.length_map]; exact hlen
  have hie : env.documents.isEmpty = false := by
    rcases h : env.documents.isEmpty with _ | _
    · rfl
    · exact absurd (List.isEmpty_iff.mp h) hne
  have hmemsel : ∀ i ∈ (argsortAsc vals).reverse.take k,
      i < env.documents.length := by
    intro i hi
    have h1 : i ∈ argsortAsc vals :=
      List.mem_reverse.mp (List.mem_of_mem_take hi)
    have h2 := argsortAsc_mem_lt h1
    rwa [hvlen] at h2
  have hall : (((argsortAsc vals).reverse.take k).all
      (fun i => decide (i < env.documents.length))) = true := by
    rw [List.all_eq_true]
    intro i hi
    simpa using hmemsel i hi
  have hloc : localSim env.documents qe embs k = Except.ok
      (((argsortAsc vals).reverse.take k).map
        (fun i => (env.documents.getD i default, vals.getD i 0))) := by
    unfold localSim
    rw [hdim]
    simp only [if_true]
    rw [← hvals, hall]
    simp only [if_true]
  have hr : retrieve env q k = ((argsortAsc vals).reverse.take k).map
      (fun i => (env.documents.getD i default, vals.getD i 0)) := by
    unfold retrieve
    simp [hie, hml, hdb, henc, hembs, hloc]
  obtain ⟨hlen', hsort, -⟩ := localSim_ok hloc
  refine ⟨?_, ?_, ?_, ?_⟩
  · rw [hr, List.length_map, List.length_take, List.length_reverse,
      argsortAsc_length, hvlen]
  · rw [hr]
    exact hsort
  · rw [hr, List.map_map]
    have hcomp : ((fun p : Doc × ℚ => p.2) ∘
        (fun i => (env.documents.getD i default, vals.getD i 0))) =
        (fun i => vals.getD i 0) := rfl
    rw [hcomp, List.map_take, List.map_reverse, argsortAsc_map_getD]
  · refine ⟨(argsortAsc vals).reverse.take k, hr, hmemsel, ?_⟩
    have hp := argsortAsc_pairwise vals
    have hp' : List.Pairwise (fun i j =>
        vals.getD i 0 < vals.getD j 0 ∨
          (vals.getD j 0 = vals.getD i 0 ∧ i < j)) (argsortAsc vals) := by
      refine hp.imp ?_
      intro a b hab
      rcases hab with h | ⟨he, hl⟩
      · exact Or.inl h
      · exact Or.inr ⟨he.symm, hl⟩
    have hrev : List.Pairwise (fun i j =>
        vals.getD j 0 < vals.getD i 0 ∨
          (vals.getD i 0 = vals.getD j 0 ∧ j < i))
        (argsortAsc vals).reverse := List.pairwise_reverse.mpr hp'
    exact List.Pairwise.sublist (List.take_sublist _ _) hrev

/-- Witness for the amended C5 at the concrete all-tie environment. -/
theorem c5_amended_local_topk_witness :
    (retrieve c5Env "q" 2).length = min 2 c5Env.documents.length ∧
    SortedDescSim (retrieve c5Env "q" 2) ∧
    (retrieve c5Env "q" 2).map (fun p => p.2) =
      (((([[], []] : List (List ℚ)).map (dotQ [])).insertionSort
        (· ≤ ·)).reverse).take 2 ∧
    ∃ sel : List ℕ,
      retrieve c5Env "q" 2 = sel.map (fun i =>
        (c5Env.documents.getD i default,
          (([[], []] : List (List ℚ)).map (dotQ [])).getD i 0)) ∧
      (∀ i ∈ sel, i < c5Env.documents.length) ∧
      List.Pairwise (fun i j =>
        (([[], []] : List (List ℚ)).map (dotQ [])).getD j 0 <
            (([[], []] : List (List ℚ)).map (dotQ [])).getD i 0 ∨
          ((([[], []] : List (List ℚ)).map (dotQ [])).getD i 0 =
              (([[], []] : List (List ℚ)).map (dotQ [])).getD j 0 ∧
            j < i)) sel :=
  c5_amended_local_topk c5Env "q" 2 [] [[], []] (by decide) rfl rfl rfl rfl
    (by decide) rfl

/-- C10: when documents load successfully from the external store (a
non-empty Supabase result), no corpus embeddings are computed —
`load_documents` leaves the embeddings absent — and consequently every
retrieval over such a corpus that does not use a non-empty remote
vector-search result is keyword search: the local embedding-similarity
strategy is unreachable. -/
theorem c10_db_corpus_no_embeddings (dbData : List Doc) (hne : dbData ≠ [])
    (ml : Bool) (enc : List String → Except Unit (List (List ℚ))) :
    load_documents (some (Except.ok dbData)) ml enc = (dbData, none) ∧
    ∀ (rpc : Option (Except Unit (List (Doc × ℚ))))
      (qenc : Except Unit (List ℚ)) (q : String) (kk : ℕ),
      retrieve
        { documents := (load_documents (some (Except.ok dbData)) ml enc).1,
          modelLoaded := true, dbRpc := rpc, queryEncode := qenc,
          embeddings := (load_documents (some (Except.ok dbData)) ml enc).2 }
        q kk = keyword_search q kk dbData ∨
      (∃ data, rpc = some (Except.ok data) ∧ data ≠ [] ∧
        retrieve
          { documents := (load_documents (some (Except.ok dbData)) ml enc).1,
            modelLoaded := true, dbRpc := rpc, queryEncode := qenc,
            embeddings := (load_documents (some (Except.ok dbData)) ml enc).2 }
          q kk = data) := by
  have hie : dbData.isEmpty = false := by
    rcases h : dbData.isEmpty with _ | _
    · rfl
    · exact absurd (List.isEmpty_iff.mp h) hne
  have hload : load_documents (some (Except.ok dbData)) ml enc =
      (dbData, none) := by
    unfold load_documents
    simp [hie]
  refine ⟨hload, ?_⟩
  intro rpc qenc q kk
  rw [hload]
  set env : RetrieveEnv :=
    { documents := ((dbData, none) :
        List Doc × Option (List (List ℚ))).1,
      modelLoaded := true, dbRpc := rpc, queryEncode := qenc,
      embeddings := ((dbData, none) :
        List Doc × Option (List (List ℚ))).2 } with henv
  have hdocs : env.documents = dbData := rfl
  have hembn : env.embeddings = none := rfl
  rcases retrieve_result env q kk with ⟨he, hr⟩ | hr |
    ⟨data, hdb, hd, hr⟩ | ⟨qe, embs, r, henc', hemb', hloc, hr⟩
  · rw [hdocs] at he
    rw [he] at hie
    exact Bool.noConfusion hie
  · left
    rw [hr, hdocs]
  · right
    refine ⟨data, ?_, ?_, hr⟩
    · exact hdb
    · intro hdnil
      rw [hdnil] at hd
      exact Bool.noConfusion hd
  · exact Option.noConfusion (hembn.symm.trans hemb')

/-- Witness for C10 at a concrete one-document DB corpus. -/
theorem c10_db_corpus_no_embeddings_witness :
    load_documents (some (Except.ok [c10Doc])) false c10Enc =
      ([c10Doc], none) ∧
    (retrieve
        { documents :=
            (load_documents (some (Except.ok [c10Doc])) false c10Enc).1,
          modelLoaded := true,
          dbRpc := none, queryEncode := Except.error (),
          embeddings :=
            (load_documents (some (Except.ok [c10Doc])) false c10Enc).2 }
        "q" 3 = keyword_search "q" 3 [c10Doc] ∨
      (∃ data,
        (none : Option (Except Unit (List (Doc × ℚ)))) =
          some (Except.ok data) ∧ data ≠ [] ∧
        retrieve
          { documents :=
              (load_documents (some (Except.ok [c10Doc])) false c10Enc).1,
            modelLoaded := true,
            dbRpc := none, queryEncode := Except.error (),
            embeddings :=
              (load_documents (some (Except.ok [c10Doc])) false c10Enc).2 }
          "q" 3 = data)) := by
  have h := c10_db_corpus_no_embeddings [c10Doc] (by decide) false c10Enc
  exact ⟨h.1, h.2 none (Except.error ()) "q" 3⟩
